import Mathlib

/-!
# Verification of the `shush` website-blocker core

Shallow embedding of the blocking-decision engine, the rule store, the
schedule evaluator and the credential vault of the `shush` browser
extension (`background.js`, `popup.js`, and the unnamed credential
script), together with proofs of the specification claims.

JavaScript numbers that arise from parsing time strings are modelled as
`Option Nat`: `none` plays the role of `NaN` (every comparison with
`none` is `false`, as every JavaScript comparison with `NaN` is).
JavaScript objects keyed by origin strings are modelled as association
lists queried with `List.lookup`.
-/

namespace Shush

/-! ## Data model (storage shapes, per `background.js` / `popup.js`) -/

/-- A schedule rule, as stored under `scheduledBlocks[origin]`:
`{id, days:[0-6], startTime:"HH:mm", endTime:"HH:mm"}`. -/
structure Schedule where
  id : Nat
  days : List Nat
  startTime : String
  endTime : String
deriving DecidableEq

/-- A timer rule, as stored under `timerBlocks[origin]`:
`{endTime: epochMs, duration: minutes}`. -/
structure Timer where
  endTime : Int
  duration : Nat
deriving DecidableEq

/-- The persisted rule store: `blockedSites`, `scheduledBlocks`,
`timerBlocks`.  The two objects keyed by origin are association lists. -/
structure Store where
  blockedSites : List String
  scheduledBlocks : List (String × List Schedule)
  timerBlocks : List (String × Timer)
deriving DecidableEq

/-- The current wall-clock instant, carrying exactly the observations the
source makes on `new Date()` / `Date.now()`: `getDay()`, `getHours()`,
`getMinutes()` and the epoch-millisecond clock. -/
structure Now where
  day : Nat
  hours : Nat
  minutes : Nat
  epochMs : Int
deriving DecidableEq

/-- `now.getHours() * 60 + now.getMinutes()` as computed by both schedule
evaluators. -/
def Now.currentMinutes (n : Now) : Nat := n.hours * 60 + n.minutes

/-! ## JavaScript string/number primitives

The time strings are processed with `split(":")`, `Number(...)` and
`parseInt(..., 10)`.  These are modelled on the character list of the
string.  `Number` and `parseInt` are modelled on the fragment the stored
data can contain: unsigned decimal-digit strings (plus the empty string,
which `Number` maps to `0`); every other string is `NaN` (`none`), as it
is in JavaScript for any string that is not a numeric literal. -/

/-- Decimal value of a digit list (most significant first). -/
def natOfDigits (l : List Char) : Nat :=
  l.foldl (fun n c => n * 10 + (c.toNat - 48)) 0

/-- `String.prototype.split(sep)` for a single-character separator,
on character lists: always returns at least one (possibly empty) piece. -/
def splitChars (sep : Char) : List Char → List (List Char)
  | [] => [[]]
  | c :: rest =>
    let r := splitChars sep rest
    if c = sep then [] :: r
    else
      match r with
      | [] => [[c]]
      | h :: t => (c :: h) :: t

/-- JavaScript `Number(s)` on the modelled fragment: `""` is `0`, a
nonempty all-digit string is its decimal value, anything else is `NaN`. -/
def jsNumber (l : List Char) : Option Nat :=
  if l = [] then some 0
  else if l.all Char.isDigit then some (natOfDigits l) else none

/-- JavaScript `parseInt(s, 10)` on the modelled fragment: the longest
leading digit prefix, `NaN` when it is empty. -/
def parseIntJs (l : List Char) : Option Nat :=
  let ds := l.takeWhile Char.isDigit
  if ds = [] then none else some (natOfDigits ds)

/-- JavaScript `<=` where either side may be `NaN` (`none`): every
comparison with `NaN` is false. -/
def jsLe : Option Nat → Option Nat → Bool
  | some a, some b => decide (a ≤ b)
  | _, _ => false

/-- JavaScript `>=` where either side may be `NaN` (`none`). -/
def jsGe : Option Nat → Option Nat → Bool
  | some a, some b => decide (b ≤ a)
  | _, _ => false

/-- `background.js` time parsing:
`const [h, m] = s.split(":").map(Number); h*60 + m`, `NaN` propagating.
A missing second component is `undefined`, so the sum is `NaN`. -/
def timeToMinutesB (s : String) : Option Nat :=
  match (splitChars ':' s.data).map jsNumber with
  | some h :: some m :: _ => some (h * 60 + m)
  | _ => none

/-- `popup.js` time parsing:
`parseInt(s.split(":")[0], 10) * 60 + parseInt(s.split(":")[1], 10)`,
`NaN` propagating (a missing second piece is `parseInt(undefined)`,
i.e. `NaN`). -/
def timeToMinutesP (s : String) : Option Nat :=
  let parts := splitChars ':' s.data
  match parseIntJs (parts.headD []), (parts.get? 1).bind parseIntJs with
  | some h, some m => some (h * 60 + m)
  | _, _ => none

/-! ## Schedule evaluator -/

/-- The per-schedule predicate inside `isScheduleBlocked`'s `.some`
callback (`background.js`): day-of-week check, then the same-day or
midnight-crossing window test with JavaScript `NaN` comparison
semantics.  The surrounding `try/catch` has no effect on string inputs
(none of `split`, `map`, `Number` throws), so it has no model. -/
def scheduleMatchesB (now : Now) (s : Schedule) : Bool :=
  if !(s.days.contains now.day) then false
  else
    let st := timeToMinutesB s.startTime
    let et := timeToMinutesB s.endTime
    let cur : Option Nat := some now.currentMinutes
    if jsLe st et then jsGe cur st && jsLe cur et
    else jsGe cur st || jsLe cur et

/-- The per-schedule predicate inside `isCurrentlyScheduleBlocked`'s
`.some` callback (`popup.js`); identical control flow with the
`parseInt`-based parser. -/
def scheduleMatchesP (now : Now) (s : Schedule) : Bool :=
  if !(s.days.contains now.day) then false
  else
    let st := timeToMinutesP s.startTime
    let et := timeToMinutesP s.endTime
    let cur : Option Nat := some now.currentMinutes
    if jsLe st et then jsGe cur st && jsLe cur et
    else jsGe cur st || jsLe cur et

/-- `isScheduleBlocked(schedules)` from `background.js`:
`!schedules || length === 0` yields `false`, otherwise `.some` over the
per-schedule predicate (the `null` case is at the call site in
`getBlockingStatus`). -/
def isScheduleBlocked (now : Now) (schedules : List Schedule) : Bool :=
  if schedules = [] then false
  else schedules.any (scheduleMatchesB now)

/-- `isCurrentlyScheduleBlocked(schedules)` from `popup.js`. -/
def isCurrentlyScheduleBlocked (now : Now) (schedules : List Schedule) : Bool :=
  schedules.any (scheduleMatchesP now)

/-! ## Blocking decision engine -/

/-- The `BlockingStatus` record returned by `getBlockingStatus`.
The source encodes "no reason" as the empty string `""`
(the JSDoc: `'instant', 'timer', 'schedule', or ''`). -/
structure BlockingStatus where
  shouldBlock : Bool
  reason : String
deriving DecidableEq

/-- `getBlockingStatus(origin)` from `background.js`: permanent block
first, then an unexpired timer, then the schedule evaluator; otherwise
not blocked with the empty reason. -/
def getBlockingStatus (store : Store) (origin : String) (now : Now) :
    BlockingStatus :=
  if store.blockedSites.contains origin then ⟨true, "instant"⟩
  else
    let timerHit : Bool :=
      match store.timerBlocks.lookup origin with
      | some t => decide (now.epochMs < t.endTime)
      | none => false
    if timerHit then ⟨true, "timer"⟩
    else
      let schedHit : Bool :=
        match store.scheduledBlocks.lookup origin with
        | some ss => isScheduleBlocked now ss
        | none => false
      if schedHit then ⟨true, "schedule"⟩
      else ⟨false, ""⟩

/-- `cleanupExpiredTimers` from `background.js` (the periodic/startup
sweep): deletes every `timerBlocks` entry whose `endTime <= now`. -/
def cleanupExpiredTimers (timerBlocks : List (String × Timer)) (now : Int) :
    List (String × Timer) :=
  timerBlocks.filter (fun p => decide (now < p.2.endTime))

/-! ## Rule store mutations (`popup.js`) -/

/-- `unblockSite(origin)` from `popup.js`: in a single storage update,
filters the origin out of `blockedSites` and deletes the origin's key
from `scheduledBlocks` and from `timerBlocks`. -/
def unblockSite (store : Store) (origin : String) : Store where
  blockedSites := store.blockedSites.filter (fun site => decide (site ≠ origin))
  scheduledBlocks := store.scheduledBlocks.filter (fun p => decide (p.1 ≠ origin))
  timerBlocks := store.timerBlocks.filter (fun p => decide (p.1 ≠ origin))

/-- `[...new Set([...a, ...b])]`: JavaScript `Set` insertion-order
deduplication, keeping the first occurrence; `seen` accumulates the
elements already emitted. -/
def jsSetDedup (seen : List String) : List String → List String
  | [] => []
  | a :: l =>
    if seen.contains a then jsSetDedup seen l
    else a :: jsSetDedup (a :: seen) l

/-- The object spread `{...a, ...b}` on origin-keyed association lists:
`b`'s value wins for a shared key.  The model updates `a`'s entries in
place from `b` and appends `b`; an entry of `b` whose key already occurs
in `a` is shadowed by the (equal-valued) updated entry, so `List.lookup`
agrees with the JavaScript object at every key. -/
def jsSpreadMerge (a b : List (String × List Schedule)) :
    List (String × List Schedule) :=
  a.map (fun p => (p.1, (b.lookup p.1).getD p.2)) ++ b

/-- The storage-merging core of `importBlocks` from `popup.js`: the new
`blockedSites` is the deduplicated concatenation of the existing and the
imported lists, and the new `scheduledBlocks` is the object spread of
the existing map with the imported map. -/
def importBlocks (existingSites : List String)
    (existingSched : List (String × List Schedule))
    (importSites : List String)
    (importSched : List (String × List Schedule)) :
    List String × List (String × List Schedule) :=
  (jsSetDedup [] (existingSites ++ importSites),
   jsSpreadMerge existingSched importSched)

/-! ## Legacy variant (`background.js`, first document): full-URL rules -/

/-- A legacy `blockedDomains` entry:
`{url, days:["Mon",...], from:"HH:MM", to:"HH:MM", redirect}`. -/
structure LegacyRule where
  url : String
  days : List String
  fromTime : String
  toTime : String
  redirect : Option String
deriving DecidableEq

/-- The clock observations of the legacy `shouldBlockRequest`: the
short weekday name and the `"HH:MM"` time string. -/
structure LegacyNow where
  dayName : String
  currentTime : String
deriving DecidableEq

/-- Strict lexicographic order on character lists, as JavaScript `<`
compares strings by code units. -/
def charListLt : List Char → List Char → Bool
  | [], [] => false
  | [], _ :: _ => true
  | _ :: _, [] => false
  | a :: as, b :: bs =>
    if a < b then true else if b < a then false else charListLt as bs

/-- JavaScript `<=` on strings (`a <= b` iff not `b < a`);
`"HH:MM"` strings compare chronologically this way. -/
def strLe (a b : String) : Bool := !(charListLt b.data a.data)

/-- `isTimeInRange(current, from, to)` from the legacy `background.js`:
string comparison of `"HH:MM"` values, with the overnight case when
`from > to`. -/
def isTimeInRange (current fromT toT : String) : Bool :=
  if !(strLe fromT toT) then strLe fromT current || strLe current toT
  else strLe fromT current && strLe current toT

/-- `domainMatches(hostname, domain)` from the legacy `background.js`:
exact host or dot-separated suffix.  Defined in the source but never
called by any decision path (dead code). -/
def domainMatches (hostname domain : String) : Bool :=
  hostname == domain || ("." ++ domain).data.isSuffixOf hostname.data

/-- The legacy `shouldBlockRequest(url)`: walks `blockedDomains`,
skipping falsy-`url` entries, entries whose `url` is not exactly the
requested URL (`url !== rule.url`), entries not listing today, and
entries whose window does not contain the current time; the first
surviving rule yields its redirect (or the default blocked page for a
falsy redirect). -/
def shouldBlockRequest (rules : List LegacyRule) (url : String)
    (now : LegacyNow) (defaultRedirect : String) : Option String :=
  match rules with
  | [] => none
  | rule :: rest =>
    if rule.url = "" then shouldBlockRequest rest url now defaultRedirect
    else if url ≠ rule.url then shouldBlockRequest rest url now defaultRedirect
    else if !(rule.days.contains now.dayName) then
      shouldBlockRequest rest url now defaultRedirect
    else if !(isTimeInRange now.currentTime rule.fromTime rule.toTime) then
      shouldBlockRequest rest url now defaultRedirect
    else
      some (match rule.redirect with
            | some r => if r = "" then defaultRedirect else r
            | none => defaultRedirect)

/-! ## Navigation interceptor (`background.js`) -/

/-- Modelled fragment of the WHATWG URL parser behind `new URL(url)` /
`.origin`: an `http://` or `https://` URL with a nonempty host parses to
`scheme + "://" + host` (host = characters up to the first `/`, `?`,
`#` or `:`); every other string is a parse failure.  (Host
normalisation, ports and non-special schemes are outside the modelled
fragment.) -/
def parseUrlOrigin (url : String) : Option String :=
  let originOf (scheme : String) : Option String :=
    let host := (url.data.drop scheme.data.length).takeWhile
      (fun c => !(c = '/' || c = '?' || c = '#' || c = ':'))
    if host = [] then none
    else some (String.mk (scheme.data ++ host))
  if "https://".data.isPrefixOf url.data then originOf "https://"
  else if "http://".data.isPrefixOf url.data then originOf "http://"
  else none

/-- `getOrigin(url)` (identical in `background.js` and `popup.js`):
`new URL(url).origin`, falling back to the input string itself when the
URL constructor throws. -/
def getOrigin (url : String) : String :=
  match parseUrlOrigin url with
  | some origin => origin
  | none => url

/-- `url.includes(pat)` on character lists. -/
def containsSubstr (pat s : String) : Bool :=
  s.data.tails.any pat.data.isPrefixOf

/-- The internal-page guard at the top of `onBeforeRequestListener`. -/
def isInternalUrl (url : String) : Bool :=
  "about:".data.isPrefixOf url.data
  || "moz-extension://".data.isPrefixOf url.data
  || containsSubstr "blocked.html" url

/-- The decision core of `onBeforeRequestListener` from
`background.js`: internal pages pass through; otherwise the request's
origin is computed with `getOrigin` and blocked requests are redirected
to the blocked page (`redirectUrl` stands for the runtime-dependent
`REDIRECT_URL`). -/
def onBeforeRequestDecision (store : Store) (now : Now)
    (redirectUrl : String) (url : String) : Option String :=
  if isInternalUrl url then none
  else if (getBlockingStatus store (getOrigin url) now).shouldBlock then
    some redirectUrl
  else none

/-! ## Credential vault (unnamed credential script)

Byte sequences are modelled as `List Nat`.  The two Web Crypto
primitives are modelled ideally, which is exactly the platform contract
the source relies on:

* PBKDF2 key derivation is modelled as the pair (passphrase, salt);
  distinct passphrases with the same salt yield distinct keys.
* AES-GCM is modelled as an ideal authenticated cipher: the ciphertext
  is an authenticated header determined by the key and the IV, followed
  by the plaintext, and decryption succeeds exactly when the supplied
  key and IV reproduce that header (an authentication-tag mismatch is a
  `none`, the model of the thrown `OperationError`).

Everything around these two primitives — the 12-byte IV prepended to the
ciphertext and sliced back off, the `"verify"` token, the signup/login
control flow — is translated from the source.  The base64 armor between
storage and bytes is an invertible transport encoding and is not
modelled. -/

/-- Byte sequences (`Uint8Array` contents). -/
abbrev Bytes := List Nat

/-- `TextEncoder().encode` of the modelled fragment: one code unit per
character. -/
def encodeString (s : String) : Bytes := s.data.map Char.toNat

/-- `TextDecoder().decode`, inverse of `encodeString` on its image. -/
def decodeString (b : Bytes) : String := String.mk (b.map Char.ofNat)

/-- An AES-GCM key derived by `getKeyFromPassphrase`: PBKDF2 modelled
ideally as the (passphrase, salt) pair. -/
structure DerivedKey where
  passphrase : String
  salt : Bytes
deriving DecidableEq

/-- `getKeyFromPassphrase(passphrase)` with the per-install salt. -/
def getKeyFromPassphrase (passphrase : String) (salt : Bytes) : DerivedKey :=
  ⟨passphrase, salt⟩

/-- Length-prefixed framing used by the ideal cipher's header. -/
def withLen (l : Bytes) : Bytes := l.length :: l

/-- The authenticated header of the ideal AES-GCM model: it determines
and is determined by the key and the IV. -/
def keyHeader (key : DerivedKey) (iv : Bytes) : Bytes :=
  withLen (encodeString key.passphrase) ++ withLen key.salt ++ withLen iv

/-- Ideal `crypto.subtle.encrypt({name:"AES-GCM", iv}, key, msg)`. -/
def subtleEncrypt (key : DerivedKey) (iv : Bytes) (msg : Bytes) : Bytes :=
  keyHeader key iv ++ msg

/-- Ideal `crypto.subtle.decrypt({name:"AES-GCM", iv}, key, ct)`:
succeeds exactly when `ct` was produced under the same key and IV
(`none` models the thrown `OperationError` on tag mismatch). -/
def subtleDecrypt (key : DerivedKey) (iv : Bytes) (ct : Bytes) :
    Option Bytes :=
  if ct.take (keyHeader key iv).length = keyHeader key iv then
    some (ct.drop (keyHeader key iv).length)
  else none

/-- `encryptPassword(data, key)`: a fresh 12-byte IV (passed explicitly
here to determinise `crypto.getRandomValues`), the AES-GCM ciphertext,
and the combined `iv ‖ ciphertext` blob. -/
def encryptPassword (data : String) (key : DerivedKey) (iv : Bytes) :
    Bytes :=
  iv ++ subtleEncrypt key iv (encodeString data)

/-- `decryptPassword(blob, key)`: splits the blob at byte 12 into IV and
ciphertext and decrypts. -/
def decryptPassword (blob : Bytes) (key : DerivedKey) : Option String :=
  let iv := blob.take 12
  let ct := blob.drop 12
  (subtleDecrypt key iv ct).map decodeString

/-- JavaScript `String.prototype.trim` (the JS whitespace set modelled
by `Char.isWhitespace`). -/
def jsTrim (s : String) : String :=
  String.mk
    (((s.data.dropWhile Char.isWhitespace).reverse.dropWhile
        Char.isWhitespace).reverse)

/-- The persisted credential state: `encryptedVerifier` and
`encryptionSalt`. -/
structure CredState where
  encryptedVerifier : Option Bytes
  encryptionSalt : Option Bytes
deriving DecidableEq

/-- Outcome of the signup handler. -/
inductive SignupResult where
  /-- "Password must be at least 4 characters." -/
  | weakPassword
  /-- verifier persisted, proceed to login -/
  | ok
deriving DecidableEq

/-- `getOrCreateSalt()`: reuse the persisted salt, else persist the
freshly generated one (passed explicitly to determinise
`crypto.getRandomValues`). -/
def getOrCreateSalt (st : CredState) (freshSalt : Bytes) :
    Bytes × CredState :=
  match st.encryptionSalt with
  | some s => (s, st)
  | none => (freshSalt, { st with encryptionSalt := some freshSalt })

/-- The signup operation on the handler's `password` variable (the
field value after `.trim()`): `!password || password.length < 4` fails
with the weak-password message and changes nothing; otherwise the key
is derived and `encrypt("verify", key)` is persisted as the verifier.
(`!password` holds only for `""`, whose length is `0 < 4`, so the guard
is exactly `length < 4`.) -/
def signup (st : CredState) (password : String)
    (freshSalt freshIv : Bytes) : SignupResult × CredState :=
  if password.length < 4 then (.weakPassword, st)
  else
    let saltSt := getOrCreateSalt st freshSalt
    let key := getKeyFromPassphrase password saltSt.1
    let encrypted := encryptPassword "verify" key freshIv
    (.ok, { saltSt.2 with encryptedVerifier := some encrypted })

/-- The full signup click handler: reads and trims the field value, then
runs the signup operation. -/
def signupHandler (st : CredState) (input : String)
    (freshSalt freshIv : Bytes) : SignupResult × CredState :=
  signup st (jsTrim input) freshSalt freshIv

/-- Outcome of the login handler. -/
inductive LoginResult where
  /-- `isLoggedIn` set, home page shown -/
  | success
  /-- "Incorrect password." (decrypted plaintext differs from "verify") -/
  | incorrectPassword
  /-- "Incorrect password or corrupted data." (decryption threw) -/
  | decryptionFailed
  /-- no stored verifier: routed back to signup -/
  | noVerifier
  /-- "Enter your password." -/
  | emptyPassword
deriving DecidableEq

/-- The login operation on the handler's `password` variable (the field
value after `.trim()`): derives the key with the per-install salt,
decrypts the stored verifier, succeeds only when the plaintext is
exactly `"verify"`; a decryption error is caught and reported as
incorrect password or corrupted data. -/
def login (stored : Option Bytes) (salt : Bytes) (password : String) :
    LoginResult :=
  if password = "" then .emptyPassword
  else
    let key := getKeyFromPassphrase password salt
    match stored with
    | none => .noVerifier
    | some blob =>
      match decryptPassword blob key with
      | some d => if d = "verify" then .success else .incorrectPassword
      | none => .decryptionFailed

/-- The full login click handler: reads and trims the field value, then
runs the login operation. -/
def loginHandler (stored : Option Bytes) (salt : Bytes)
    (input : String) : LoginResult :=
  login stored salt (jsTrim input)

/-! ## Declarative blocking conditions (the claims' vocabulary) -/

/-- The origin is in the instant-block set. -/
def instantHit (store : Store) (origin : String) : Prop :=
  origin ∈ store.blockedSites

/-- The origin has a timer rule with `endTime > now`. -/
def timerHit (store : Store) (origin : String) (now : Now) : Prop :=
  ∃ t, store.timerBlocks.lookup origin = some t ∧ now.epochMs < t.endTime

/-- The origin has some schedule rule active now
(per the `background.js` evaluator). -/
def scheduleHit (store : Store) (origin : String) (now : Now) : Prop :=
  ∃ ss, store.scheduledBlocks.lookup origin = some ss
    ∧ ∃ s ∈ ss, scheduleMatchesB now s = true

/-! ## Helper lemmas -/

theorem isScheduleBlocked_iff (now : Now) (ss : List Schedule) :
    isScheduleBlocked now ss = true ↔ ∃ s ∈ ss, scheduleMatchesB now s = true := by
  unfold isScheduleBlocked
  split
  · simp [*]
  · simp [List.any_eq_true]

theorem timerHit_iff (store : Store) (origin : String) (now : Now) :
    ((match store.timerBlocks.lookup origin with
      | some t => decide (now.epochMs < t.endTime)
      | none => false) = true) ↔ timerHit store origin now := by
  cases h : store.timerBlocks.lookup origin <;> simp [timerHit, h]

theorem scheduleHit_iff (store : Store) (origin : String) (now : Now) :
    ((match store.scheduledBlocks.lookup origin with
      | some ss => isScheduleBlocked now ss
      | none => false) = true) ↔ scheduleHit store origin now := by
  cases h : store.scheduledBlocks.lookup origin <;>
    simp [scheduleHit, h, isScheduleBlocked_iff]

/-! ## C1: decision-engine precedence and effective blocked state -/

/-- C1.  For every origin and time, `getBlockingStatus` evaluates rules
in the fixed precedence order instant → timer (only if unexpired) →
schedule, returning the first match's reason; `shouldBlock` is true iff
the origin is in the instant set, or has a timer with `endTime > now`,
or has some schedule active now; and when no rule matches it returns
`shouldBlock = false` with the empty reason (the code's encoding of the
spec's `none`). -/
theorem claim1_decision_engine (store : Store) (origin : String) (now : Now) :
    ((getBlockingStatus store origin now).shouldBlock = true ↔
      instantHit store origin ∨ timerHit store origin now ∨ scheduleHit store origin now)
    ∧ ((getBlockingStatus store origin now).reason = "instant" ↔
      instantHit store origin)
    ∧ ((getBlockingStatus store origin now).reason = "timer" ↔
      ¬ instantHit store origin ∧ timerHit store origin now)
    ∧ ((getBlockingStatus store origin now).reason = "schedule" ↔
      ¬ instantHit store origin ∧ ¬ timerHit store origin now ∧ scheduleHit store origin now)
    ∧ (getBlockingStatus store origin now = ⟨false, ""⟩ ↔
      ¬ instantHit store origin ∧ ¬ timerHit store origin now ∧ ¬ scheduleHit store origin now) := by
  have hT := timerHit_iff store origin now
  have hS := scheduleHit_iff store origin now
  unfold getBlockingStatus
  by_cases hmem : origin ∈ store.blockedSites
  · have hi : instantHit store origin := hmem
    refine ⟨?_, ?_, ?_, ?_, ?_⟩ <;> simp [hmem, hi]
  · have hni : ¬ instantHit store origin := hmem
    by_cases ht : (match store.timerBlocks.lookup origin with
        | some t => decide (now.epochMs < t.endTime)
        | none => false) = true
    · have hth : timerHit store origin now := hT.mp ht
      refine ⟨?_, ?_, ?_, ?_, ?_⟩ <;> simp [hmem, ht, hni, hth]
    · have hnt : ¬ timerHit store origin now := fun h => ht (hT.mpr h)
      by_cases hs : (match store.scheduledBlocks.lookup origin with
          | some ss => isScheduleBlocked now ss
          | none => false) = true
      · have hsh : scheduleHit store origin now := hS.mp hs
        refine ⟨?_, ?_, ?_, ?_, ?_⟩ <;> simp [hmem, ht, hs, hni, hnt, hsh]
      · have hns : ¬ scheduleHit store origin now := fun h => hs (hS.mpr h)
        refine ⟨?_, ?_, ?_, ?_, ?_⟩ <;> simp [hmem, ht, hs, hni, hnt, hns]

/-! ## C2: schedule-window arithmetic -/

/-- C2.  For every schedule whose time strings parse (to `st` and `et`
minutes) and every current time: the evaluator returns false when the
current weekday is not in the schedule's day set; otherwise, when
`st ≤ et` it is active iff `st ≤ currentMinutes ≤ et` (inclusive at
both boundaries), and when `st > et` (window crossing midnight) it is
active iff `currentMinutes ≥ st` or `currentMinutes ≤ et`.  Proved for
both evaluators (`background.js` and `popup.js`). -/
theorem claim2_schedule_evaluator (s : Schedule) (now : Now) (st et : Nat)
    (hbs : timeToMinutesB s.startTime = some st)
    (hbe : timeToMinutesB s.endTime = some et)
    (hps : timeToMinutesP s.startTime = some st)
    (hpe : timeToMinutesP s.endTime = some et) :
    (now.day ∉ s.days →
      scheduleMatchesB now s = false ∧ scheduleMatchesP now s = false)
    ∧ (now.day ∈ s.days → st ≤ et →
      ((scheduleMatchesB now s = true ↔
        st ≤ now.currentMinutes ∧ now.currentMinutes ≤ et)
       ∧ (scheduleMatchesP now s = true ↔
        st ≤ now.currentMinutes ∧ now.currentMinutes ≤ et)))
    ∧ (now.day ∈ s.days → et < st →
      ((scheduleMatchesB now s = true ↔
        st ≤ now.currentMinutes ∨ now.currentMinutes ≤ et)
       ∧ (scheduleMatchesP now s = true ↔
        st ≤ now.currentMinutes ∨ now.currentMinutes ≤ et))) := by
  refine ⟨fun hd => ?_, fun hd hle => ?_, fun hd hlt => ?_⟩
  · constructor <;> simp [scheduleMatchesB, scheduleMatchesP, hd]
  · constructor <;>
      simp [scheduleMatchesB, scheduleMatchesP, hbs, hbe, hps, hpe, hd,
        jsLe, jsGe, hle]
  · have hnle : ¬ (st ≤ et) := Nat.not_le.mpr hlt
    constructor <;>
      simp [scheduleMatchesB, scheduleMatchesP, hbs, hbe, hps, hpe, hd,
        jsLe, jsGe, hnle]

/-- Witness for C2 at the spec's own scenario: schedule Monday
09:00–17:00, evaluated Monday at exactly 09:00 (inclusive start
boundary) is active. -/
theorem claim2_schedule_evaluator_witness :
    scheduleMatchesB ⟨1, 9, 0, 0⟩ ⟨7, [1], "09:00", "17:00"⟩ = true := by
  have h := claim2_schedule_evaluator ⟨7, [1], "09:00", "17:00"⟩ ⟨1, 9, 0, 0⟩
    540 1020 (by decide) (by decide) (by decide) (by decide)
  exact (h.2.1 (by decide) (by decide)).1.mpr (by decide)

/-! ## C3: timer expiry and the purge sweep -/

theorem getBlockingStatus_no_hit (store : Store) (origin : String) (now : Now)
    (h1 : ¬ instantHit store origin) (h2 : ¬ timerHit store origin now)
    (h3 : ¬ scheduleHit store origin now) :
    getBlockingStatus store origin now = ⟨false, ""⟩ := by
  have hc : origin ∉ store.blockedSites := h1
  have ht : ¬ ((match store.timerBlocks.lookup origin with
      | some t => decide (now.epochMs < t.endTime)
      | none => false) = true) := fun h => h2 ((timerHit_iff store origin now).mp h)
  have hs : ¬ ((match store.scheduledBlocks.lookup origin with
      | some ss => isScheduleBlocked now ss
      | none => false) = true) := fun h => h3 ((scheduleHit_iff store origin now).mp h)
  unfold getBlockingStatus
  simp [hc, ht, hs]

theorem getBlockingStatus_reason_timer (store : Store) (origin : String) (now : Now)
    (h : (getBlockingStatus store origin now).reason = "timer") :
    timerHit store origin now := by
  revert h
  unfold getBlockingStatus
  by_cases hmem : origin ∈ store.blockedSites
  · simp [hmem]
  · by_cases ht : (match store.timerBlocks.lookup origin with
        | some t => decide (now.epochMs < t.endTime)
        | none => false) = true
    · exact fun _ => (timerHit_iff store origin now).mp ht
    · by_cases hs : (match store.scheduledBlocks.lookup origin with
          | some ss => isScheduleBlocked now ss
          | none => false) = true
      · simp [hmem, ht, hs]
      · simp [hmem, ht, hs]

/-- C3.  For every origin with a timer rule whose `endTime <= now`, the
decision engine never blocks for the timer (the reason is never
`"timer"`, and with no other rule matching the verdict is
`shouldBlock = false`); and the purge sweep `cleanupExpiredTimers`
removes exactly the timers with `endTime <= now`, leaving the unexpired
ones in the store. -/
theorem claim3_timer_expiry (store : Store) (origin : String) (now : Now) (t : Timer)
    (hT : store.timerBlocks.lookup origin = some t)
    (hexp : t.endTime ≤ now.epochMs) :
    (getBlockingStatus store origin now).reason ≠ "timer"
    ∧ (¬ instantHit store origin → ¬ scheduleHit store origin now →
        getBlockingStatus store origin now = ⟨false, ""⟩)
    ∧ ∀ (tb : List (String × Timer)) (nowMs : Int) (o : String) (t' : Timer),
        (o, t') ∈ cleanupExpiredTimers tb nowMs ↔ (o, t') ∈ tb ∧ nowMs < t'.endTime := by
  have hnt : ¬ timerHit store origin now := by
    rintro ⟨t', ht', hlt⟩
    rw [hT] at ht'
    cases ht'
    omega
  refine ⟨fun h => hnt (getBlockingStatus_reason_timer store origin now h),
    fun h1 h3 => getBlockingStatus_no_hit store origin now h1 hnt h3,
    fun tb nowMs o t' => ?_⟩
  simp [cleanupExpiredTimers, List.mem_filter]

/-- Witness for C3: a timer that expired one millisecond ago
(`endTime = 999`, `now = 1000`) yields `shouldBlock = false` with the
empty reason, and the sweep removes it while keeping a live timer. -/
theorem claim3_timer_expiry_witness :
    getBlockingStatus ⟨[], [], [("https://x.com", ⟨999, 30⟩)]⟩
        "https://x.com" ⟨1, 12, 0, 1000⟩ = ⟨false, ""⟩
    ∧ (("https://x.com", (⟨999, 30⟩ : Timer)) ∉
        cleanupExpiredTimers [("https://x.com", ⟨999, 30⟩), ("https://y.com", ⟨2000, 5⟩)] 1000
       ∧ ("https://y.com", (⟨2000, 5⟩ : Timer)) ∈
        cleanupExpiredTimers [("https://x.com", ⟨999, 30⟩), ("https://y.com", ⟨2000, 5⟩)] 1000) := by
  have h := claim3_timer_expiry ⟨[], [], [("https://x.com", ⟨999, 30⟩)]⟩
    "https://x.com" ⟨1, 12, 0, 1000⟩ ⟨999, 30⟩ (by decide) (by decide)
  refine ⟨h.2.1 (by simp [instantHit]) ?_, ?_, ?_⟩
  · rintro ⟨ss, hss, -⟩
    simp at hss
  · intro hm
    exact absurd ((h.2.2 _ 1000 _ _).mp hm).2 (by decide)
  · exact (h.2.2 _ 1000 _ _).mpr ⟨by simp, by decide⟩

/-! ## C4: exact-origin matching -/

theorem shouldBlockRequest_none (rules : List LegacyRule) (url : String)
    (lnow : LegacyNow) (rdef : String) (h : ∀ r ∈ rules, r.url ≠ url) :
    shouldBlockRequest rules url lnow rdef = none := by
  induction rules with
  | nil => rfl
  | cons r rest ih =>
    have hr : r.url ≠ url := h r (by simp)
    have hrest : ∀ r' ∈ rest, r'.url ≠ url := fun r' hr' => h r' (by simp [hr'])
    by_cases h0 : r.url = ""
    · rw [shouldBlockRequest, if_pos h0]
      exact ih hrest
    · rw [shouldBlockRequest, if_neg h0, if_pos (Ne.symm hr)]
      exact ih hrest

/-- C4.  The decision engine matches by exact origin string equality:
an origin with no rule stored under exactly its own key is never
blocked, whatever rules are stored for other origins (in particular a
rule for `https://example.com` never blocks `https://sub.example.com`);
likewise the legacy full-URL matcher blocks only a URL that is exactly
equal to some rule's stored `url`. -/
theorem claim4_exact_origin (store : Store) (now : Now) (origin : String)
    (h1 : origin ∉ store.blockedSites)
    (h2 : store.scheduledBlocks.lookup origin = none)
    (h3 : store.timerBlocks.lookup origin = none) :
    getBlockingStatus store origin now = ⟨false, ""⟩
    ∧ ∀ (rules : List LegacyRule) (url : String) (lnow : LegacyNow) (rdef : String),
        (∀ r ∈ rules, r.url ≠ url) → shouldBlockRequest rules url lnow rdef = none := by
  refine ⟨getBlockingStatus_no_hit store origin now h1 ?_ ?_,
    fun rules url lnow rdef h => shouldBlockRequest_none rules url lnow rdef h⟩
  · rintro ⟨t, ht, -⟩
    rw [h3] at ht
    cases ht
  · rintro ⟨ss, hss, -⟩
    rw [h2] at hss
    cases hss

/-- Witness for C4: a store with an instant rule, a schedule and a
timer all for `https://example.com` does not block
`https://sub.example.com`, and the legacy matcher with a rule for
`https://example.com/` does not block `https://sub.example.com/`. -/
theorem claim4_exact_origin_witness :
    getBlockingStatus
        ⟨["https://example.com"],
         [("https://example.com", [⟨1, [1], "00:00", "23:59"⟩])],
         [("https://example.com", ⟨2000, 30⟩)]⟩
        "https://sub.example.com" ⟨1, 12, 0, 1500⟩ = ⟨false, ""⟩
    ∧ shouldBlockRequest
        [⟨"https://example.com/", ["Mon"], "00:00", "23:59", none⟩]
        "https://sub.example.com/" ⟨"Mon", "12:00"⟩ "blocked.html" = none := by
  have h := claim4_exact_origin
    ⟨["https://example.com"],
     [("https://example.com", [⟨1, [1], "00:00", "23:59"⟩])],
     [("https://example.com", ⟨2000, 30⟩)]⟩
    ⟨1, 12, 0, 1500⟩ "https://sub.example.com"
    (by decide) (by decide) (by decide)
  exact ⟨h.1, h.2 _ _ _ _ (by decide)⟩

/-! ## C5: verifier round-trip and wrong-password failure -/

theorem map_ofNat_map_toNat (l : List Char) :
    (l.map Char.toNat).map Char.ofNat = l := by
  induction l with
  | nil => rfl
  | cons c t ih => simp [ih, Char.ofNat_toNat]

theorem decodeString_encodeString (s : String) :
    decodeString (encodeString s) = s := by
  cases s with
  | mk data =>
    show String.mk ((data.map Char.toNat).map Char.ofNat) = String.mk data
    rw [map_ofNat_map_toNat]

theorem encodeString_inj {a b : String} (h : encodeString a = encodeString b) :
    a = b := by
  have h2 := congrArg decodeString h
  rwa [decodeString_encodeString, decodeString_encodeString] at h2

theorem keyHeader_cons (q : String) (salt iv : Bytes) :
    keyHeader ⟨q, salt⟩ iv
      = (encodeString q).length
          :: ((encodeString q ++ withLen salt) ++ withLen iv) := by
  simp [keyHeader, withLen, List.cons_append]

theorem keyHeader_prefix_inj (p p' : String) (salt iv m : Bytes)
    (h : (keyHeader ⟨p, salt⟩ iv ++ m).take (keyHeader ⟨p', salt⟩ iv).length
        = keyHeader ⟨p', salt⟩ iv) :
    p = p' := by
  rw [keyHeader_cons p salt iv, keyHeader_cons p' salt iv, List.cons_append,
    List.length_cons, List.take_succ_cons, List.cons_eq_cons] at h
  obtain ⟨hlen, htail⟩ := h
  have hT : ((encodeString p' ++ withLen salt) ++ withLen iv).length
      = ((encodeString p ++ withLen salt) ++ withLen iv).length := by
    simp [List.length_append, hlen]
  rw [hT, List.take_left] at htail
  exact encodeString_inj
    (List.append_cancel_right (List.append_cancel_right htail))

theorem decryptPassword_encryptPassword (m : String) (key : DerivedKey)
    (iv : Bytes) (hiv : iv.length = 12) :
    decryptPassword (encryptPassword m key iv) key = some m := by
  unfold decryptPassword encryptPassword subtleDecrypt subtleEncrypt
  rw [← hiv]
  simp [List.take_left, List.drop_left, decodeString_encodeString]

theorem decryptPassword_wrong_key (m p p' : String) (salt iv : Bytes)
    (hiv : iv.length = 12) (hne : p ≠ p') :
    decryptPassword (encryptPassword m ⟨p, salt⟩ iv) ⟨p', salt⟩ = none := by
  unfold decryptPassword encryptPassword subtleDecrypt subtleEncrypt
  rw [← hiv]
  simp only [List.take_left, List.drop_left]
  rw [if_neg ?_]
  · rfl
  · intro h
    exact hne (keyHeader_prefix_inj p p' salt iv (encodeString m) h)

/-- C5.  For every plaintext (in particular the verifier token
`"verify"`) and every derived key, decrypt ∘ encrypt is the identity;
and decrypting the stored verifier with a key derived (with the same
salt) from a different password fails (`none`, the model of the thrown
authentication error), so the login flow never accepts it — it can
never silently yield a wrong plaintext that passes the `"verify"`
check. -/
theorem claim5_verifier_crypto (m p p' : String) (salt iv : Bytes)
    (hiv : iv.length = 12) :
    decryptPassword (encryptPassword m (getKeyFromPassphrase p salt) iv)
        (getKeyFromPassphrase p salt) = some m
    ∧ (p ≠ p' →
        decryptPassword (encryptPassword m (getKeyFromPassphrase p salt) iv)
            (getKeyFromPassphrase p' salt) = none
        ∧ login (some (encryptPassword "verify" (getKeyFromPassphrase p salt) iv))
            salt p' ≠ .success) := by
  refine ⟨decryptPassword_encryptPassword m _ iv hiv, fun hne => ⟨?_, ?_⟩⟩
  · exact decryptPassword_wrong_key m p p' salt iv hiv hne
  · unfold login
    by_cases hp : p' = ""
    · simp [hp]
    · have hd := decryptPassword_wrong_key "verify" p p' salt iv hiv hne
      simp [hp, getKeyFromPassphrase, hd]

/-- Witness for C5: with key derived from `"abcd"`, the verifier
round-trips; logging in with `"wxyz"` against that verifier does not
succeed. -/
theorem claim5_verifier_crypto_witness :
    decryptPassword
        (encryptPassword "verify" (getKeyFromPassphrase "abcd" [7])
          [0, 1, 2, 3, 4, 5, 6, 7, 8, 9, 10, 11])
        (getKeyFromPassphrase "abcd" [7]) = some "verify"
    ∧ login (some (encryptPassword "verify" (getKeyFromPassphrase "abcd" [7])
          [0, 1, 2, 3, 4, 5, 6, 7, 8, 9, 10, 11])) [7] "wxyz" ≠ .success := by
  have h := claim5_verifier_crypto "verify" "abcd" "wxyz" [7]
    [0, 1, 2, 3, 4, 5, 6, 7, 8, 9, 10, 11] (by decide)
  exact ⟨h.1, (h.2 (by decide)).2⟩

/-! ## C6: weak-password rejection at signup -/

/-- C6.  For every password, the signup operation fails with the
weak-password error exactly when the password's length is less than 4;
on failure the credential state (verifier and salt) is unchanged, and
on success the encrypted verifier is persisted. -/
theorem claim6_signup_weak_password (st : CredState) (password : String)
    (freshSalt freshIv : Bytes) :
    ((signup st password freshSalt freshIv).1 = .weakPassword ↔
      password.length < 4)
    ∧ (password.length < 4 → (signup st password freshSalt freshIv).2 = st)
    ∧ (4 ≤ password.length →
        (signup st password freshSalt freshIv).2.encryptedVerifier
          = some (encryptPassword "verify"
              (getKeyFromPassphrase password (getOrCreateSalt st freshSalt).1)
              freshIv)) := by
  by_cases h4 : password.length < 4
  · refine ⟨by simp [signup, h4], fun _ => by simp [signup, h4],
      fun hle => absurd h4 (Nat.not_lt.mpr hle)⟩
  · refine ⟨by simp [signup, h4], fun hlt => absurd hlt h4,
      fun _ => by simp [signup, h4]⟩

/-- Witness for C6, at the spec's scenario: `signup("abc")` fails with
the weak-password error leaving the state unchanged, and
`signup("abcd")` does not fail. -/
theorem claim6_signup_weak_password_witness :
    (signup ⟨none, none⟩ "abc" [] []).1 = .weakPassword
    ∧ (signup ⟨none, none⟩ "abc" [] []).2 = ⟨none, none⟩
    ∧ (signup ⟨none, none⟩ "abcd" [] []).1 ≠ .weakPassword := by
  have h1 := claim6_signup_weak_password ⟨none, none⟩ "abc" [] []
  have h2 := claim6_signup_weak_password ⟨none, none⟩ "abcd" [] []
  exact ⟨h1.1.mpr (by decide), h1.2.1 (by decide),
    fun hw => absurd (h2.1.mp hw) (by decide)⟩

/-! ## C7: unblockAll removes everything for one origin, nothing else -/

theorem lookup_filter_ne_self {β : Type} (l : List (String × β)) (k : String) :
    (l.filter (fun p => decide (p.1 ≠ k))).lookup k = none := by
  induction l with
  | nil => rfl
  | cons p rest ih =>
    obtain ⟨pk, pv⟩ := p
    rw [List.filter_cons]
    by_cases h : pk = k
    · rw [if_neg (by simp [h])]
      exact ih
    · rw [if_pos (by simp [h])]
      have hb : (k == pk) = false := beq_false_of_ne (Ne.symm h)
      simp only [List.lookup, hb]
      exact ih

theorem lookup_filter_ne_other {β : Type} (l : List (String × β)) (k o : String)
    (h : o ≠ k) :
    (l.filter (fun p => decide (p.1 ≠ k))).lookup o = l.lookup o := by
  induction l with
  | nil => rfl
  | cons p rest ih =>
    obtain ⟨pk, pv⟩ := p
    rw [List.filter_cons]
    by_cases hp : pk = k
    · have hb : (o == pk) = false := beq_false_of_ne (fun he => h (he.trans hp))
      rw [if_neg (by simp [hp])]
      simp only [List.lookup, hb]
      exact ih
    · rw [if_pos (by simp [hp])]
      by_cases ho : o = pk
      · have hb : (o == pk) = true := by simp [ho]
        simp only [List.lookup, hb]
      · have hb : (o == pk) = false := beq_false_of_ne ho
        simp only [List.lookup, hb]
        exact ih

/-- C7.  For every origin, `unblockSite` removes the origin from the
instant-block list, deletes the origin's entire schedule list and
deletes the origin's timer — and leaves every other origin's rules of
all three kinds unchanged. -/
theorem claim7_unblockAll (store : Store) (origin : String) :
    origin ∉ (unblockSite store origin).blockedSites
    ∧ (unblockSite store origin).scheduledBlocks.lookup origin = none
    ∧ (unblockSite store origin).timerBlocks.lookup origin = none
    ∧ ∀ o : String, o ≠ origin →
        ((o ∈ (unblockSite store origin).blockedSites ↔ o ∈ store.blockedSites)
         ∧ (unblockSite store origin).scheduledBlocks.lookup o
             = store.scheduledBlocks.lookup o
         ∧ (unblockSite store origin).timerBlocks.lookup o
             = store.timerBlocks.lookup o) := by
  refine ⟨?_, lookup_filter_ne_self _ _, lookup_filter_ne_self _ _,
    fun o ho => ⟨?_, lookup_filter_ne_other _ _ _ ho,
      lookup_filter_ne_other _ _ _ ho⟩⟩
  · simp [unblockSite, List.mem_filter]
  · simp [unblockSite, List.mem_filter, ho]

/-- Witness for C7: unblocking `https://a.com` clears its three rules
and leaves the rules of `https://b.com` in place. -/
theorem claim7_unblockAll_witness :
    "https://a.com" ∉ (unblockSite
        ⟨["https://a.com", "https://b.com"],
         [("https://a.com", [⟨1, [1], "09:00", "17:00"⟩]),
          ("https://b.com", [⟨2, [2], "10:00", "11:00"⟩])],
         [("https://a.com", ⟨50, 1⟩), ("https://b.com", ⟨99, 2⟩)]⟩
        "https://a.com").blockedSites
    ∧ (unblockSite
        ⟨["https://a.com", "https://b.com"],
         [("https://a.com", [⟨1, [1], "09:00", "17:00"⟩]),
          ("https://b.com", [⟨2, [2], "10:00", "11:00"⟩])],
         [("https://a.com", ⟨50, 1⟩), ("https://b.com", ⟨99, 2⟩)]⟩
        "https://a.com").timerBlocks.lookup "https://b.com"
      = some ⟨99, 2⟩ := by
  have h := claim7_unblockAll
    ⟨["https://a.com", "https://b.com"],
     [("https://a.com", [⟨1, [1], "09:00", "17:00"⟩]),
      ("https://b.com", [⟨2, [2], "10:00", "11:00"⟩])],
     [("https://a.com", ⟨50, 1⟩), ("https://b.com", ⟨99, 2⟩)]⟩
    "https://a.com"
  refine ⟨h.1, ?_⟩
  rw [(h.2.2.2 "https://b.com" (by decide)).2.2]
  decide

/-! ## C8: import merging -/

theorem mem_jsSetDedup (seen l : List String) (x : String) :
    x ∈ jsSetDedup seen l ↔ x ∈ l ∧ x ∉ seen := by
  induction l generalizing seen with
  | nil => simp [jsSetDedup]
  | cons a t ih =>
    by_cases ha : a ∈ seen
    · rw [jsSetDedup, if_pos (by simpa using ha), ih]
      constructor
      · rintro ⟨hx, hs⟩
        exact ⟨List.mem_cons_of_mem a hx, hs⟩
      · rintro ⟨hx, hs⟩
        rcases List.mem_cons.mp hx with rfl | hx
        · exact absurd ha hs
        · exact ⟨hx, hs⟩
    · rw [jsSetDedup, if_neg (by simpa using ha)]
      simp only [List.mem_cons, ih, List.mem_cons]
      constructor
      · rintro (rfl | ⟨hx, hs⟩)
        · exact ⟨Or.inl rfl, ha⟩
        · exact ⟨Or.inr hx, fun hmem => hs (Or.inr hmem)⟩
      · rintro ⟨rfl | hx, hs⟩
        · exact Or.inl rfl
        · by_cases hxa : x = a
          · exact Or.inl hxa
          · exact Or.inr ⟨hx, fun hmem => hs (hmem.resolve_left hxa)⟩

theorem nodup_jsSetDedup (seen l : List String) :
    (jsSetDedup seen l).Nodup := by
  induction l generalizing seen with
  | nil => simp [jsSetDedup]
  | cons a t ih =>
    by_cases ha : a ∈ seen
    · rw [jsSetDedup, if_pos (by simpa using ha)]
      exact ih seen
    · rw [jsSetDedup, if_neg (by simpa using ha)]
      refine List.nodup_cons.mpr ⟨?_, ih (a :: seen)⟩
      intro hmem
      exact ((mem_jsSetDedup _ _ _).mp hmem).2 (List.mem_cons_self a seen)

theorem lookup_jsSpreadMerge (a b : List (String × List Schedule)) (o : String) :
    (jsSpreadMerge a b).lookup o =
      match b.lookup o with
      | some v => some v
      | none => a.lookup o := by
  induction a with
  | nil =>
    show b.lookup o = _
    cases h : b.lookup o <;> simp [List.lookup]
  | cons p t ih =>
    obtain ⟨pk, pv⟩ := p
    show ((pk, (b.lookup pk).getD pv) :: (t.map _ ++ b)).lookup o = _
    by_cases ho : o = pk
    · have hb : (o == pk) = true := by simp [ho]
      simp only [List.lookup, hb]
      subst ho
      cases h : b.lookup o <;> simp [h, List.lookup, hb]
    · have hb : (o == pk) = false := beq_false_of_ne ho
      simp only [List.lookup, hb]
      show (jsSpreadMerge t b).lookup o = _
      rw [ih]

/-- C8.  Import produces a `blockedSites` list that is duplicate-free
and contains exactly the union of the existing and the imported origin
lists, and a `scheduledBlocks` map in which an imported origin's entire
schedule list replaces the existing list for that origin while origins
absent from the import keep their existing list. -/
theorem claim8_import_merge (existingSites importSites : List String)
    (existingSched importSched : List (String × List Schedule)) :
    ((importBlocks existingSites existingSched importSites importSched).1.Nodup
     ∧ ∀ x : String,
        x ∈ (importBlocks existingSites existingSched importSites importSched).1
          ↔ (x ∈ existingSites ∨ x ∈ importSites))
    ∧ ∀ o : String,
        (importBlocks existingSites existingSched importSites importSched).2.lookup o
          = match importSched.lookup o with
            | some v => some v
            | none => existingSched.lookup o := by
  refine ⟨⟨nodup_jsSetDedup [] _, fun x => ?_⟩,
    fun o => lookup_jsSpreadMerge existingSched importSched o⟩
  rw [show (importBlocks existingSites existingSched importSites importSched).1
      = jsSetDedup [] (existingSites ++ importSites) from rfl,
    mem_jsSetDedup]
  simp

/-! ## C9: malformed time strings

The claim says a malformed rule is treated as not matching.  That is
false: JavaScript `NaN` comparisons make `start <= end` false, sending
evaluation into the midnight-crossing branch, where the one well-formed
bound can still satisfy its disjunct (see
`claim9_malformed_schedule_counterexample`).  What does hold: a rule
with both bounds malformed never matches, a malformed rule never aborts
evaluation of the other rules in the list, and a rule with exactly one
malformed bound matches exactly on the remaining one-sided test. -/

/-- C9 (amended).  A schedule rule with both time strings malformed
never matches; evaluation is a logical OR over the rules, so any
matching rule blocks no matter what corrupt rules accompany it in the
list (one corrupt rule never prevents a well-formed rule from
blocking); and a rule with exactly one malformed time string matches
iff the day matches and the current time satisfies the surviving bound
(`currentMinutes <= end` for a malformed start, `start <= currentMinutes`
for a malformed end) — it is not always treated as non-matching, which
is the one point on which the original claim fails. -/
theorem claim9_malformed_schedule (now : Now) :
    (∀ s : Schedule, timeToMinutesB s.startTime = none →
      timeToMinutesB s.endTime = none → scheduleMatchesB now s = false)
    ∧ (∀ s : Schedule, timeToMinutesP s.startTime = none →
      timeToMinutesP s.endTime = none → scheduleMatchesP now s = false)
    ∧ (∀ (schedules : List Schedule) (s : Schedule), s ∈ schedules →
      scheduleMatchesB now s = true → isScheduleBlocked now schedules = true)
    ∧ (∀ (schedules : List Schedule) (s : Schedule), s ∈ schedules →
      scheduleMatchesP now s = true →
        isCurrentlyScheduleBlocked now schedules = true)
    ∧ (∀ (s : Schedule) (et : Nat), timeToMinutesB s.startTime = none →
      timeToMinutesB s.endTime = some et →
      (scheduleMatchesB now s = true ↔
        now.day ∈ s.days ∧ now.currentMinutes ≤ et))
    ∧ (∀ (s : Schedule) (st : Nat), timeToMinutesB s.startTime = some st →
      timeToMinutesB s.endTime = none →
      (scheduleMatchesB now s = true ↔
        now.day ∈ s.days ∧ st ≤ now.currentMinutes)) := by
  refine ⟨fun s hs he => ?_, fun s hs he => ?_, fun schedules s hmem hmatch => ?_,
    fun schedules s hmem hmatch => ?_, fun s et hs he => ?_, fun s st hs he => ?_⟩
  · simp [scheduleMatchesB, hs, he, jsLe, jsGe]
  · simp [scheduleMatchesP, hs, he, jsLe, jsGe]
  · exact (isScheduleBlocked_iff now schedules).mpr ⟨s, hmem, hmatch⟩
  · exact List.any_eq_true.mpr ⟨s, hmem, hmatch⟩
  · by_cases hd : now.day ∈ s.days
    · simp [scheduleMatchesB, hs, he, jsLe, jsGe, hd]
    · simp [scheduleMatchesB, hd]
  · by_cases hd : now.day ∈ s.days
    · simp [scheduleMatchesB, hs, he, jsLe, jsGe, hd]
    · simp [scheduleMatchesB, hd]

/-- Counterexample refuting C9 as stated: the rule
`{days:[1], startTime:"abc", endTime:"06:00"}` has a malformed
`startTime` (`NaN` in both parsers), yet on Monday at 05:00 both
evaluators report the rule as matching — the malformed rule is *not*
treated as "does not match". -/
theorem claim9_malformed_schedule_counterexample :
    timeToMinutesB "abc" = none ∧ timeToMinutesP "abc" = none
    ∧ isScheduleBlocked ⟨1, 5, 0, 0⟩ [⟨7, [1], "abc", "06:00"⟩] = true
    ∧ isCurrentlyScheduleBlocked ⟨1, 5, 0, 0⟩ [⟨7, [1], "abc", "06:00"⟩]
        = true := by
  decide

/-- Witness for C9 (amended): a list holding a fully corrupt rule
(`"xx"`/`"yy"`) alongside a well-formed Monday 09:00–17:00 rule still
blocks on Monday noon — the corrupt rule does not prevent the
well-formed one from blocking. -/
theorem claim9_malformed_schedule_witness :
    isScheduleBlocked ⟨1, 12, 0, 0⟩
      [⟨5, [1], "xx", "yy"⟩, ⟨6, [1], "09:00", "17:00"⟩] = true := by
  exact (claim9_malformed_schedule ⟨1, 12, 0, 0⟩).2.2.1
    [⟨5, [1], "xx", "yy"⟩, ⟨6, [1], "09:00", "17:00"⟩]
    ⟨6, [1], "09:00", "17:00"⟩ (by decide) (by decide)

/-! ## C10: totality of getOrigin and verbatim handling of bad URLs -/

/-- C10.  `getOrigin` is total: when the URL parses it returns the
parsed origin, and otherwise it returns the input unchanged; hence for
a malformed, non-internal URL the interceptor evaluates the raw string
itself against the rule store (blocking iff the store blocks that
exact string) instead of rejecting the navigation. -/
theorem claim10_getOrigin_total (url : String) (store : Store) (now : Now)
    (redirectUrl : String) :
    (∀ o : String, parseUrlOrigin url = some o → getOrigin url = o)
    ∧ (parseUrlOrigin url = none →
        getOrigin url = url
        ∧ (isInternalUrl url = false →
            onBeforeRequestDecision store now redirectUrl url
              = (if (getBlockingStatus store url now).shouldBlock then
                  some redirectUrl
                 else none))) := by
  refine ⟨fun o ho => ?_, fun hn => ⟨?_, fun hi => ?_⟩⟩
  · unfold getOrigin
    rw [ho]
  · unfold getOrigin
    rw [hn]
  · unfold onBeforeRequestDecision getOrigin
    rw [hn, hi]
    simp

/-- Witness for C10: `"not a url"` fails to parse, `getOrigin` returns
it verbatim, and with that very string in `blockedSites` the
interceptor blocks the navigation. -/
theorem claim10_getOrigin_total_witness :
    getOrigin "not a url" = "not a url"
    ∧ onBeforeRequestDecision ⟨["not a url"], [], []⟩ ⟨1, 12, 0, 0⟩
        "moz-extension://ext/blocked.html" "not a url"
      = some "moz-extension://ext/blocked.html" := by
  have h := claim10_getOrigin_total "not a url" ⟨["not a url"], [], []⟩
    ⟨1, 12, 0, 0⟩ "moz-extension://ext/blocked.html"
  have h2 := h.2 (by decide)
  refine ⟨h2.1, ?_⟩
  rw [h2.2 (by decide)]
  decide

end Shush

namespace Shush

/-! quick sanity examples (schedule from spec §8: Mon 09:00–17:00) -/

example : timeToMinutesB "09:00" = some 540 := by decide
example : timeToMinutesP "17:00" = some 1020 := by decide
example : timeToMinutesB "abc" = none := by decide
example : scheduleMatchesB ⟨1, 9, 0, 0⟩ ⟨7, [1], "09:00", "17:00"⟩ = true := by decide
example : scheduleMatchesB ⟨1, 17, 1, 0⟩ ⟨7, [1], "09:00", "17:00"⟩ = false := by decide
example : scheduleMatchesB ⟨2, 12, 0, 0⟩ ⟨7, [1], "09:00", "17:00"⟩ = false := by decide
-- overnight 22:00–06:00
example : scheduleMatchesB ⟨1, 23, 30, 0⟩ ⟨7, [1], "22:00", "06:00"⟩ = true := by decide
example : scheduleMatchesB ⟨1, 5, 30, 0⟩ ⟨7, [1], "22:00", "06:00"⟩ = true := by decide
example : scheduleMatchesB ⟨1, 12, 0, 0⟩ ⟨7, [1], "22:00", "06:00"⟩ = false := by decide
-- malformed startTime with valid endTime still matches in the morning
example : scheduleMatchesB ⟨1, 5, 0, 0⟩ ⟨7, [1], "abc", "06:00"⟩ = true := by decide
example : scheduleMatchesP ⟨1, 5, 0, 0⟩ ⟨7, [1], "abc", "06:00"⟩ = true := by decide

end Shush
